import Mathlib

/-!
Verification of the core of `archey.py` (Manganar/Archey): the ANSI-aware
layout engine (`ANSILen`, `ANSIljust`, the logo/data merge and the final
width-constrained printing) and the OS/distribution identifier
(`IdentifyOS`), together with the collection orchestrator's append-only
result sequence.

Strings are modelled as `List Char` (Python `len`/slicing count code
points, as `List Char` does).  External commands, environment variables and
file contents are modelled by an explicit `Env` record: each field holds
what the corresponding probe would return, mirroring the program's
command-adapter boundary.  Recursive scanners are written with an explicit
fuel argument (initialised to the input length, which always suffices) so
that every definition evaluates by kernel reduction on concrete inputs.
-/

namespace Archey

/-! ## ANSI escape-sequence recognition (`ANSILen`, archey.py:1602-1614)

The source builds, with pyparsing,
`Combine(Literal('\x1b') + '[' + Optional(delimitedList(integer,';')) + oneOf(list(alphas)))`
and strips every match from the string.  `integer` is a maximal run of
digits, `delimitedList(integer,';')` is `integer (';' integer)*`, and the
terminator is a single ASCII letter; `Combine` forbids gaps between the
pieces.  pyparsing scans left to right, removing each match and continuing
after it, leaving unmatched characters (including partial escape
sequences) in place. -/

/-- Head-is-digit test for the optional parameter list of an escape
sequence. -/
def headIsDigit : List Char → Bool
  | c :: _ => c.isDigit
  | [] => false

/-- Fuelled worker for `dropSemiIntList`; the fuel only forces structural
recursion and is irrelevant once it is at least the input length. -/
def dropSemiGo : Nat → List Char → List Char
  | fuel+1, ';' :: c :: cs =>
      if c.isDigit then dropSemiGo fuel (cs.dropWhile Char.isDigit)
      else ';' :: c :: cs
  | _, l => l

/-- After the first maximal digit run, pyparsing's
`delimitedList(integer, ';')` greedily consumes `;`-separated further
digit runs: each step needs a `';'` followed by at least one digit. -/
def dropSemiIntList (l : List Char) : List Char := dropSemiGo l.length l

/-- The optional `;`-separated digit-run parameter list after `ESC [`. -/
def escParams (cs : List Char) : List Char :=
  if headIsDigit cs then dropSemiIntList (cs.dropWhile Char.isDigit) else cs

/-- The single terminating ASCII letter of an escape sequence. -/
def escFinish : List Char → Option (List Char)
  | c :: rest => if c.isAlpha then some rest else none
  | [] => none

/-- Body of an escape sequence after `ESC [`: the optional parameter list
followed by one ASCII letter.  Returns the remainder of the input after
the match, or `none` when the sequence does not terminate correctly
(pyparsing then leaves the characters in place). -/
def matchEscTail (cs : List Char) : Option (List Char) :=
  escFinish (escParams cs)

/-- One attempted match of the full escape-sequence pattern
`'\x1b' '[' [digits (';' digits)*] letter` at the head of the input. -/
def matchEscape : List Char → Option (List Char)
  | a :: b :: cs => if a = '\x1b' ∧ b = '[' then matchEscTail cs else none
  | _ => none

/-- Fuelled worker for `stripANSI`; the fuel only forces structural
recursion and is irrelevant once it is at least the input length. -/
def stripGo : Nat → List Char → List Char
  | fuel+1, c :: cs =>
    match matchEscape (c :: cs) with
    | some rest => stripGo fuel rest
    | none => c :: stripGo fuel cs
  | _, l => l

/-- The stripper `Suppress(escapeSeq).transformString`: scan left to right, delete each
escape-sequence match, keep every other character. -/
def stripANSI (l : List Char) : List Char := stripGo l.length l

/-- Function `ANSILen` (archey.py:1602-1614): the pair
`(len(NonANSIString), len(ANSIString) - len(NonANSIString))` — the visible
length and the escape-sequence character count. -/
def ANSILen (l : List Char) : Nat × Nat :=
  ((stripANSI l).length, l.length - (stripANSI l).length)

/-- Abbreviation for the visible length, `ANSILen`'s first component. -/
def visibleLen (l : List Char) : Nat := (ANSILen l).1

/-- Abbreviation for the escape-character count, `ANSILen`'s second
component. -/
def ansiCount (l : List Char) : Nat := (ANSILen l).2

/-- Function `ANSIljust` (archey.py:1617-1625): Python's
`ANSIString.ljust(MinLength + ANSICount)` pads with trailing spaces up to
total length `MinLength + ANSICount` (no-op when already longer). -/
def ANSIljust (l : List Char) (minLength : Nat) : List Char :=
  l ++ List.replicate (minLength + (ANSILen l).2 - l.length) ' '

/-- Final printing truncation (archey.py:1717-1719): each line is printed
as `EachLine[:TerminalColumns + ANSIChars]` where `ANSIChars` is that
line's escape-character count. -/
def truncatePrinted (terminalColumns : Nat) (line : List Char) : List Char :=
  line.take (terminalColumns + (ANSILen line).2)

/-- The merge step (archey.py:1683-1711).  `terminalColumns` is the
source's `TerminalColumns` variable (raw terminal columns minus one).
Below 70 columns the result lines are used alone; otherwise the two lists
are equalised with empty lines, the maximum visible logo width is found,
and each logo line is left-justified to it and glued to its data line
with a four-space gutter. -/
def archeyOutputList (terminalColumns : Nat)
    (logoOutputList result : List (List Char)) : List (List Char) :=
  if terminalColumns < 70 then result
  else
    let listSizeDiff : Int := (logoOutputList.length : Int) - (result.length : Int)
    let result2 := if 0 < listSizeDiff
      then result ++ List.replicate listSizeDiff.toNat ([] : List Char)
      else result
    let logo2 := if listSizeDiff < 0
      then logoOutputList ++ List.replicate (-listSizeDiff).toNat ([] : List Char)
      else logoOutputList
    let minLogoWidth := logo2.foldl
      (fun acc line => if acc < (ANSILen line).1 then (ANSILen line).1 else acc) 0
    (logo2.zip result2).map
      (fun p => ANSIljust p.1 minLogoWidth ++ "    ".data ++ p.2)

/-- The merge algorithm as §4.3 of the spec words it: equalise both lists
to `max L D` lines with empty strings, take `minLogoWidth` as the maximum
visible length over the logo lines, then pair up and glue with the
four-space gutter.  Compared against `archeyOutputList` for the
refinement claim about the merge branch. -/
def specMergedLines (logo result : List (List Char)) : List (List Char) :=
  let n := max logo.length result.length
  let logo2 := logo ++ List.replicate (n - logo.length) ([] : List Char)
  let result2 := result ++ List.replicate (n - result.length) ([] : List Char)
  let minLogoWidth := (logo2.map (fun line => (ANSILen line).1)).foldr max 0
  (logo2.zip result2).map
    (fun p => ANSIljust p.1 minLogoWidth ++ "    ".data ++ p.2)

/-! ## Distro data model (archey.py:58-172) -/

/-- The `clear` escape (archey.py:59). -/
def clear : List Char := "\x1b[0m".data

/-- Bold colour escapes (archey.py:60-67). -/
def redB : List Char := "\x1b[1;31m".data

def greenB : List Char := "\x1b[1;32m".data

def yellowB : List Char := "\x1b[1;33m".data

def blueB : List Char := "\x1b[1;34m".data

def cyanB : List Char := "\x1b[1;36m".data

/-- Normal colour escapes used by the colour table (archey.py:60-67). -/
def whiteN : List Char := "\x1b[0;37m".data

def yellowN : List Char := "\x1b[0;33m".data

/-- The `Distro` enumeration (archey.py:95-99). -/
inductive Distro
  | Arch | BunsenLabs | CrunchBang | CentOS | Debian | Elementary | Fedora | FreeBSD
  | Kubuntu | Linuxmint | MacOS | Manjaro | ManjaroARM | Neon | PopOS | Raspbian
  | Ubuntu | Zorin | Unknown
deriving DecidableEq

/-- Table `DistroEnumDict` (archey.py:102-121): string distro ID to enum value;
`none` models absence from the dictionary. -/
def DistroEnumDict : String → Option Distro
  | "Arch" => some Distro.Arch
  | "Bunsenlabs" => some Distro.BunsenLabs
  | "Centos" => some Distro.CentOS
  | "CrunchBang" => some Distro.CrunchBang
  | "Debian" => some Distro.Debian
  | "Elementary" => some Distro.Elementary
  | "Fedora" => some Distro.Fedora
  | "Freebsd" => some Distro.FreeBSD
  | "Kubuntu" => some Distro.Kubuntu
  | "Linuxmint" => some Distro.Linuxmint
  | "MacOS" => some Distro.MacOS
  | "Manjaro" => some Distro.Manjaro
  | "Manjaro-ARM" => some Distro.ManjaroARM
  | "Neon" => some Distro.Neon
  | "Pop" => some Distro.PopOS
  | "Raspbian" => some Distro.Raspbian
  | "Ubuntu" => some Distro.Ubuntu
  | "Zorin" => some Distro.Zorin
  | _ => none

/-- Table `DistroColourDict` (archey.py:153-172): label colour per distro;
`none` models absence (the `Unknown` value is not in the dictionary). -/
def DistroColourDict : Distro → Option (List Char)
  | Distro.Arch => some blueB
  | Distro.BunsenLabs => some whiteN
  | Distro.CentOS => some blueB
  | Distro.CrunchBang => some whiteN
  | Distro.Debian => some redB
  | Distro.Elementary => some blueB
  | Distro.Fedora => some blueB
  | Distro.FreeBSD => some redB
  | Distro.Kubuntu => some cyanB
  | Distro.Linuxmint => some greenB
  | Distro.MacOS => some yellowN
  | Distro.Manjaro => some greenB
  | Distro.ManjaroARM => some greenB
  | Distro.Neon => some blueB
  | Distro.PopOS => some cyanB
  | Distro.Raspbian => some redB
  | Distro.Ubuntu => some redB
  | Distro.Zorin => some cyanB
  | Distro.Unknown => none

/-- Table `MacOSVersion_dict` (archey.py:243-258). -/
def MacOSVersion_dict : String → Option String
  | "10.4" => some "Mac OS X Tiger"
  | "10.5" => some "Mac OS X Leopard"
  | "10.6" => some "Mac OS X Snow Leopard"
  | "10.7" => some "Mac OS X Lion"
  | "10.8" => some "OS X Mountain Lion"
  | "10.9" => some "OS X Mavericks"
  | "10.10" => some "OS X Yosemite"
  | "10.11" => some "OS X El Capitan"
  | "10.12" => some "macOS Sierra"
  | "10.13" => some "macOS High Sierra"
  | "10.14" => some "macOS Mojave"
  | "10.15" => some "macOS Catalina"
  | "10.16" => some "macOS Big Sur"
  | "11.0" => some "macOS Big Sur"
  | _ => none

/-- Table `DesktopEnvironmentShellVarDict` (archey.py:138-150). -/
def DesktopEnvironmentShellVarDict : String → Option String
  | "X-Cinnamon" => some "Cinnamon"
  | "GNOME" => some "GNOME"
  | "pop:GNOME" => some "GNOME"
  | "ubuntu:GNOME" => some "GNOME"
  | "KDE" => some "KDE"
  | "LXDE" => some "LXDE"
  | "MATE" => some "MATE"
  | "Pantheon" => some "Pantheon"
  | "unity" => some "Unity"
  | "Unity" => some "Unity"
  | "XFCE" => some "Xfce"
  | _ => none

/-- Function `output(key, value)` (archey.py:743-750): look the label colour up in
`DistroColourDict` with `redB` as the default, and render
`f"{DistroColour}{key}:{clear} {value}"`. -/
def outputLine (distroID : Distro) (key : String) (value : List Char) : List Char :=
  (match DistroColourDict distroID with
   | some colour => colour
   | none => redB) ++ key.data ++ [':'] ++ clear ++ [' '] ++ value

/-! ## Environment model

Everything the program reads from outside — command availability and
output, environment variables, file presence and contents — is a field
here, at the granularity of the source's command-adapter boundary
(`CheckCommandInstalled` / `GetCommandOutput` and the per-tool output
parsers, which the spec treats as external collaborators). -/

structure Env where
  /-- `CheckCommandInstalled('uname')`. -/
  unameInstalled : Bool := false
  /-- `uname -s` first output line. -/
  unameS : String := ""
  /-- `uname -m` first output line. -/
  unameM : String := ""
  /-- `uname -sr` first output line (kernel collector). -/
  unameSR : String := ""
  /-- `ProductUserVisibleVersion` from `SystemVersion.plist`; `none`
  models an unreadable file or absent key, on which the source raises. -/
  productUserVisibleVersion : Option String := none
  /-- `os.path.exists('/etc/os-release')`. -/
  osReleaseExists : Bool := false
  /-- The `ID` key of the parsed os-release file, when present. -/
  osReleaseID : Option String := none
  /-- The `PRETTY_NAME` key of the parsed os-release file, when present. -/
  osReleasePrettyName : Option String := none
  /-- `CheckCommandInstalled('lsb_release')`. -/
  lsbReleaseInstalled : Bool := false
  /-- `lsb_release -is` first output line. -/
  lsbReleaseIS : String := ""
  /-- `lsb_release -ds` first output line. -/
  lsbReleaseDS : String := ""
  /-- `os.getenv('XDG_CURRENT_DESKTOP')`. -/
  xdgCurrentDesktop : Option String := none
  /-- Result of the psutil process-table scan of
  `DesktopEnvironmentProcessDict` (archey.py:952-965): the name matched by
  the last matching process, or the initial `"None"` when no process
  matches. -/
  deProcessScan : String := "None"
  /-- `KDEVersionInfo()` rendering (external `kded`/`plasmashell` calls). -/
  kdeVersionInfo : String := "KDE"
  /-- `GNOMEVersionInfo()` rendering (external `gnome-shell` etc. calls). -/
  gnomeVersionInfo : String := "GNOME"
  /-- `os.path.exists('/proc/device-tree/model')`. -/
  deviceTreeExists : Bool := false
  /-- Content of `/proc/device-tree/model`. -/
  deviceTreeModel : String := ""
  /-- `getuser()`. -/
  userName : String := ""
  /-- `uname -n` after the `.local` rewrite (archey.py:825-830). -/
  hostName : String := ""
  /-- Uptime in seconds (from `kern.boottime` or `/proc/uptime`). -/
  uptimeSeconds : Nat := 0
  /-- The window-manager string assembled from tty/xprop/session probes
  (archey.py:1125-1181); always rendered, value external. -/
  wmRendered : String := ""
  /-- `os.getenv('SHELL')`; when unset the source raises `AttributeError`
  on `None.split` before appending anything. -/
  shellVar : Option String := none
  /-- The shell display string (basename or `bash --version` line). -/
  shellDisplay : String := ""
  /-- `IdentifyTerminal()`: grandparent process name. -/
  terminalName : String := ""
  /-- The resolution string assembled from tty/xrandr/macOS probes
  (archey.py:1410-1473); always rendered, value external. -/
  resolutionRendered : String := ""
  /-- The GPU string (archey.py:1550-1585); always rendered. -/
  gpuRendered : String := ""
  /-- `sysctl -n machdep.cpu.brand_string` (macOS CPU). -/
  cpuBrandString : String := ""
  /-- `sysctl -n hw.model` (FreeBSD CPU). -/
  cpuHwModel : String := ""
  /-- `CheckCommandInstalled('lscpu')`. -/
  lscpuInstalled : Bool := false
  /-- `PrettyCPUInfo` as assembled from `lscpu` output (archey.py:843-884). -/
  lscpuPrettyCPUInfo : String := ""
  /-- Parsed RAM used, mebibytes (archey.py:753-791). -/
  ramUsed : Nat := 0
  /-- Parsed RAM total, mebibytes. -/
  ramTotal : Nat := 1
  /-- `dpkg-query -W` line count. -/
  dpkgCount : Nat := 0
  /-- `flatpak list` line count. -/
  flatpakCount : Nat := 0
  /-- `snap list` line count. -/
  snapCount : Nat := 0
  /-- `DebianAppImagesCount()`. -/
  appImageCount : Nat := 0
  /-- `pacman -Q` line count. -/
  pacmanCount : Nat := 0
  /-- `rpm -qa` line count. -/
  rpmCount : Nat := 0
  /-- `CheckCommandInstalled('brew')`. -/
  brewInstalled : Bool := false
  /-- `CheckCommandInstalled('port')`. -/
  portInstalled : Bool := false
  /-- Homebrew cellar entry count. -/
  brewCount : Nat := 0
  /-- `port installed` line count minus one (can be negative). -/
  portCount : Int := 0
  /-- Whether the `df -k` scan found a `/dev/disk` entry (macOS). -/
  macDisksFound : Bool := false
  /-- The rendered macOS disk string (archey.py:1349-1372). -/
  macDiskRendered : String := ""
  /-- The rendered Linux disk string (archey.py:1380-1403). -/
  linuxDiskRendered : String := ""

/-! ## OS identification (`IdentifyOS`, archey.py:1034-1122) -/

/-- Python string slicing `s[n:]` (character based). -/
def strDrop (s : String) (n : Nat) : String := String.mk (s.data.drop n)

/-- Python `str.capitalize()` for the ASCII identifiers that occur here:
first character upper-cased, the rest lower-cased. -/
def pyCapitalize (s : String) : String :=
  match s.data with
  | [] => ""
  | c :: cs => String.mk (c.toUpper :: cs.map Char.toLower)

/-- Python's substring test `needle in hay`. -/
def listContainsSub (needle hay : List Char) : Bool :=
  (List.range (hay.length + 1)).any fun i => needle.isPrefixOf (hay.drop i)

/-- Python `v.find(c, start)`: index of the first occurrence of `c` at or
after `start`, `-1` when absent. -/
def pyFindFrom (v : List Char) (c : Char) (start : Nat) : Int :=
  match (v.drop start).findIdx? (· = c) with
  | some i => ((start + i : Nat) : Int)
  | none => -1

/-- Value `BaseOSXVersion` (archey.py:1052-1053): Python truncates the version
at the second dot, `OSXVersion[:OSXVersion.find(".", OSXVersion.find(".") + 1)]`;
when there is no second dot, `find` yields `-1` and the slice drops the
final character instead. -/
def baseOSXVersion (v : List Char) : List Char :=
  let firstDot := pyFindFrom v '.' 0
  let minorVersionLocation := pyFindFrom v '.' (firstDot + 1).toNat
  if 0 ≤ minorVersionLocation then v.take minorVersionLocation.toNat
  else v.take (v.length - 1)

/-- Function `DesktopEvironmentID()` (archey.py:934-967, the source's spelling):
"Aqua" on MacOS, otherwise the `XDG_CURRENT_DESKTOP` lookup, otherwise the
process-table scan.  An unset variable and an unmapped value both fall
through to the scan. -/
def DesktopEvironmentID (env : Env) (distroID : Distro) : String :=
  if distroID = Distro.MacOS then "Aqua"
  else
    match env.xdgCurrentDesktop with
    | some v =>
      match DesktopEnvironmentShellVarDict v with
      | some de => de
      | none => env.deProcessScan
    | none => env.deProcessScan

/-- Value `DetectBaseSystem` (archey.py:1037-1040): `uname -s`, or "Unknown"
when `uname` is not installed. -/
def detectBaseSystem (env : Env) : String :=
  if env.unameInstalled then env.unameS else "Unknown"

/-- Steps 1-4 of the identification cascade (archey.py:1036-1094): the
raw identity string and pretty name before the architecture suffix and
the overrides.  The Darwin branch opens `SystemVersion.plist` without an
existence check (archey.py:1047) and indexes `ProductUserVisibleVersion`
unconditionally; `Except.error` models the uncaught exception on that
path. -/
def baseIdentity (env : Env) : Except String (String × String) :=
  let DetectBaseSystem := detectBaseSystem env
  if DetectBaseSystem = "Darwin" then
    match env.productUserVisibleVersion with
    | none => Except.error "SystemVersion.plist unreadable"
    | some OSXVersion =>
      let BaseOSXVersion := String.mk (baseOSXVersion OSXVersion.data)
      let OSReleasePretty :=
        match MacOSVersion_dict BaseOSXVersion with
        | some name => name ++ " (" ++ OSXVersion ++ ")"
        | none => "Mac OS Version " ++ OSXVersion
      Except.ok ("MacOS", OSReleasePretty)
  else if DetectBaseSystem = "Linux" ∨ DetectBaseSystem = "FreeBSD" then
    if env.osReleaseExists then
      let OSReleaseID :=
        match env.osReleaseID with
        | some i => pyCapitalize i
        | none => "Undetermined"
      let OSReleasePretty :=
        match env.osReleasePrettyName with
        | some p => p
        | none => "Undetermined"
      Except.ok (OSReleaseID, OSReleasePretty)
    else if env.lsbReleaseInstalled then
      Except.ok (env.lsbReleaseIS, env.lsbReleaseDS)
    else
      Except.ok ("Undetermined", "Undetermined")
  else
    Except.ok ("Undetermined", "Undetermined")

/-- Step 5 (archey.py:1096-1099): append the architecture, space
separated, when `uname` is installed. -/
def archAppend (env : Env) (pretty : String) : String :=
  if env.unameInstalled then pretty ++ " " ++ env.unameM else pretty

/-- Kubuntu override (archey.py:1103-1106).  The desktop-environment
probe is called while the global `DistroID` still holds its initial
`Distro.Unknown` value (it is assigned only after `IdentifyOS` returns,
archey.py:262 and 1630).  The pretty-name rewrite is
`"Ku" + OSReleasePretty[1:]`. -/
def kubuntuOverride (env : Env) (idPretty : String × String) : String × String :=
  if idPretty.1 = "Ubuntu" ∧ DesktopEvironmentID env Distro.Unknown = "KDE" then
    ("Kubuntu", "Ku" ++ strDrop idPretty.2 1)
  else idPretty

/-- Raspbian override (archey.py:1108-1114).  The pretty-name rewrite is
`"Rasp" + OSReleasePretty[2:]`. -/
def raspbianOverride (env : Env) (idPretty : String × String) : String × String :=
  if idPretty.1 = "Debian" ∧ env.deviceTreeExists = true ∧
      listContainsSub "Raspberry Pi".data env.deviceTreeModel.data = true then
    ("Raspbian", "Rasp" ++ strDrop idPretty.2 2)
  else idPretty

/-- Function `IdentifyOS()` (archey.py:1034-1122): the cascade, the architecture
suffix, the two overrides, and the final `DistroEnumDict` lookup with
`Distro.Unknown` as the default.  Returns
`(OSReleaseID, OSEnumID, OSReleasePretty)`. -/
def IdentifyOS (env : Env) : Except String (String × Distro × String) :=
  match baseIdentity env with
  | Except.error e => Except.error e
  | Except.ok idPretty0 =>
    let idPretty1 := (idPretty0.1, archAppend env idPretty0.2)
    let idPretty2 := kubuntuOverride env idPretty1
    let idPretty3 := raspbianOverride env idPretty2
    let OSEnumID :=
      match DistroEnumDict idPretty3.1 with
      | some x => x
      | none => Distro.Unknown
    Except.ok (idPretty3.1, OSEnumID, idPretty3.2)

/-! ## Attribute collectors and the orchestrator (archey.py:743-1599, 1647-1665)

Each `*_display` function is modelled as a state transformer on the shared
`result` list of rendered lines.  Value rendering that is pure
external-command parsing lives in `Env` fields; the control flow that
decides whether `output` is called (and so whether a line is appended) is
transcribed from the source.  On paths where the source raises an uncaught
exception before reaching any `output` call (noted per collector), the
state is returned unchanged: nothing is appended. -/

/-- The run context: the globals set once at startup (archey.py:1630). -/
structure Ctx where
  distroID : Distro
  distroTitle : String

/-- A Python value that is either the `Distro` enum class object itself
or one of its members; needed because archey.py:812 compares the class
`Distro` (not the variable `DistroID`) against `Distro.FreeBSD`. -/
inductive PyEnumVal
  | distroClass
  | distroMember (d : Distro)
deriving DecidableEq

/-- Collector `user_display` (archey.py:818-820). -/
def user_display (env : Env) (ctx : Ctx) (result : List (List Char)) : List (List Char) :=
  result ++ [outputLine ctx.distroID "User" env.userName.data]

/-- Collector `hostname_display` (archey.py:823-830). -/
def hostname_display (env : Env) (ctx : Ctx) (result : List (List Char)) : List (List Char) :=
  result ++ [outputLine ctx.distroID "Hostname" env.hostName.data]

/-- Collector `distro_display` (archey.py:804-806). -/
def distro_display (_env : Env) (ctx : Ctx) (result : List (List Char)) : List (List Char) :=
  result ++ [outputLine ctx.distroID "OS" ctx.distroTitle.data]

/-- Collector `pimodel_display` (archey.py:1588-1599): a line only when the
device-tree model file exists and contains "Raspberry". -/
def pimodel_display (env : Env) (ctx : Ctx) (result : List (List Char)) : List (List Char) :=
  if env.deviceTreeExists then
    if listContainsSub "Raspberry".data env.deviceTreeModel.data then
      result ++ [outputLine ctx.distroID "Pi Model" env.deviceTreeModel.data]
    else result
  else result

/-- Collector `kernel_display` (archey.py:809-815).  The source guard is
`if Distro != Distro.FreeBSD:` — the enum *class* compared against a
member, which is never equal — modelled literally with `PyEnumVal`. -/
def kernel_display (env : Env) (ctx : Ctx) (result : List (List Char)) : List (List Char) :=
  if PyEnumVal.distroClass ≠ PyEnumVal.distroMember Distro.FreeBSD then
    result ++ [outputLine ctx.distroID "Kernel" env.unameSR.data]
  else result

/-- The `uptime` string assembly (archey.py:906-927); `int()` on non-negative
floats is floor, matching `Nat` division. -/
def uptimeString (fuptime : Nat) : String :=
  let day := fuptime / 86400
  let rem1 := fuptime % 86400
  let hour := rem1 / 3600
  let rem2 := rem1 % 3600
  let minute := rem2 / 60
  (if day = 1 then toString day ++ " day, " else toString day ++ " days, ") ++
    (if hour = 1 then toString hour ++ " hour, " else toString hour ++ " hours, ") ++
    (if minute = 1 then toString minute ++ " minute." else toString minute ++ " minutes.")

/-- Collector `uptime_display` (archey.py:895-929); the boot-time arithmetic per
platform is external, the seconds value sits in `Env`. -/
def uptime_display (env : Env) (ctx : Ctx) (result : List (List Char)) : List (List Char) :=
  result ++ [outputLine ctx.distroID "Uptime" (uptimeString env.uptimeSeconds).data]

/-- Collector `wm_display` (archey.py:1125-1181): every branch assigns a value and
one `output` call always runs; the value assembly is external probing. -/
def wm_display (env : Env) (ctx : Ctx) (result : List (List Char)) : List (List Char) :=
  result ++ [outputLine ctx.distroID "Window Manager" env.wmRendered.data]

/-- Collector `de_display` (archey.py:1019-1031): KDE and GNOME get version
enhancement; a line is appended only when the result is not "None". -/
def de_display (env : Env) (ctx : Ctx) (result : List (List Char)) : List (List Char) :=
  let de0 := DesktopEvironmentID env ctx.distroID
  let de :=
    if de0 = "KDE" then env.kdeVersionInfo
    else if de0 = "GNOME" then env.gnomeVersionInfo
    else de0
  if de ≠ "None" then result ++ [outputLine ctx.distroID "Desktop Environment" de.data]
  else result

/-- Collector `sh_display` (archey.py:1184-1201): with `SHELL` unset the source
raises `AttributeError` on `None.split` before any append. -/
def sh_display (env : Env) (ctx : Ctx) (result : List (List Char)) : List (List Char) :=
  match env.shellVar with
  | none => result
  | some _ => result ++ [outputLine ctx.distroID "Shell" env.shellDisplay.data]

/-- Collector `term_display` (archey.py:1237-1241). -/
def term_display (env : Env) (ctx : Ctx) (result : List (List Char)) : List (List Char) :=
  result ++ [outputLine ctx.distroID "Terminal" env.terminalName.data]

/-- Collector `packages_display` (archey.py:1255-1306): one line for the Debian,
Arch, Fedora and MacOS families, none for any other distro.  On MacOS,
unless both `brew` and `port` are installed the count variables are
unbound and the source raises `NameError` before any append. -/
def packages_display (env : Env) (ctx : Ctx) (result : List (List Char)) : List (List Char) :=
  if ctx.distroID ∈ [Distro.Ubuntu, Distro.Kubuntu, Distro.Raspbian, Distro.Debian,
      Distro.CrunchBang, Distro.Linuxmint, Distro.Zorin, Distro.PopOS, Distro.Elementary] then
    let interim := toString env.dpkgCount ++ " (dpkg)"
    let interim := if 0 < env.flatpakCount
      then interim ++ ", " ++ toString env.flatpakCount ++ " (flatpak)" else interim
    let interim := if 0 < env.snapCount
      then interim ++ ", " ++ toString env.snapCount ++ " (snap)" else interim
    let interim := if 0 < env.appImageCount
      then interim ++ ", " ++ toString env.appImageCount ++ " (appimaged)" else interim
    result ++ [outputLine ctx.distroID "Packages" interim.data]
  else if ctx.distroID ∈ [Distro.Arch, Distro.ManjaroARM, Distro.Manjaro] then
    result ++ [outputLine ctx.distroID "Packages" (toString env.pacmanCount).data]
  else if ctx.distroID = Distro.Fedora then
    result ++ [outputLine ctx.distroID "Packages" (toString env.rpmCount).data]
  else if ctx.distroID = Distro.MacOS then
    if env.brewInstalled ∧ env.portInstalled then
      let packages :=
        if 0 < env.portCount ∧ 0 < env.brewCount then
          toString env.brewCount ++ " (brew), " ++ toString env.portCount ++ " (port)"
        else if 0 < env.brewCount then toString env.brewCount ++ " (brew)"
        else if 0 < env.portCount then toString env.portCount ++ " (port)"
        else "No Package Managers Installed"
      result ++ [outputLine ctx.distroID "Packages" packages.data]
    else result
  else result

/-- Collector `resolution_display` (archey.py:1410-1473): every branch assigns a
value ("Undetermined" as default) and one `output` always runs. -/
def resolution_display (env : Env) (ctx : Ctx) (result : List (List Char)) : List (List Char) :=
  result ++ [outputLine ctx.distroID "Resolution" env.resolutionRendered.data]

/-- Collector `gpu_display` (archey.py:1550-1585): one `output` always runs. -/
def gpu_display (env : Env) (ctx : Ctx) (result : List (List Char)) : List (List Char) :=
  result ++ [outputLine ctx.distroID "GPU" env.gpuRendered.data]

/-- Collector `cpu_display` (archey.py:833-892): four branches select the value and
one `output` always runs; the multi-space collapse and lscpu parsing are
part of the value. -/
def cpu_display (env : Env) (ctx : Ctx) (result : List (List Char)) : List (List Char) :=
  let pretty :=
    if ctx.distroID = Distro.MacOS then env.cpuBrandString
    else if ctx.distroID = Distro.FreeBSD then env.cpuHwModel
    else if env.lscpuInstalled then env.lscpuPrettyCPUInfo
    else "Undetermined (lscpu not available)"
  result ++ [outputLine ctx.distroID "CPU" pretty.data]

/-- Collector `ram_display` (archey.py:753-801): the three platform branches parse
memory via external commands into used/total mebibytes; the percentage
(`int((RAMUsed / RAMTotal) * 100)`, floor for these magnitudes) selects
the colour and one `output` always runs. -/
def ram_display (env : Env) (ctx : Ctx) (result : List (List Char)) : List (List Char) :=
  let percent := env.ramUsed * 100 / env.ramTotal
  let colour := if 80 ≤ percent then redB else if percent ≤ 50 then greenB else yellowB
  result ++ [outputLine ctx.distroID "RAM"
    (colour ++ (toString env.ramUsed).data ++ " MB ".data ++ clear ++ "/ ".data ++
      (toString env.ramTotal).data ++ " MB".data)]

/-- Collector `disk_display` (archey.py:1327-1407): MacOS renders a value or
"No disks found"; FreeBSD sets "Unsupported"; other systems render from
`df`.  A line is appended only when the value is not "Unsupported". -/
def disk_display (env : Env) (ctx : Ctx) (result : List (List Char)) : List (List Char) :=
  let diskOutput :=
    if ctx.distroID = Distro.MacOS then
      if env.macDisksFound then env.macDiskRendered else "No disks found"
    else if ctx.distroID = Distro.FreeBSD then "Unsupported"
    else env.linuxDiskRendered
  if diskOutput ≠ "Unsupported" then
    result ++ [outputLine ctx.distroID "Disk" diskOutput.data]
  else result

/-- The `display` field list (archey.py:75-92), in configured order. -/
inductive Field
  | user | hostname | distro | pimodel | kernel | uptime | wm | de
  | sh | term | packages | resolution | gpu | cpu | ram | disk
deriving DecidableEq

/-- The configured display order (archey.py:75-92). -/
def displayFields : List Field :=
  [Field.user, Field.hostname, Field.distro, Field.pimodel, Field.kernel,
   Field.uptime, Field.wm, Field.de, Field.sh, Field.term, Field.packages,
   Field.resolution, Field.gpu, Field.cpu, Field.ram, Field.disk]

/-- Dispatch from a field to its collector (the source builds the
function name `EachAttribute + '_display'` and resolves it dynamically,
archey.py:1656-1660). -/
def runCollector (env : Env) (ctx : Ctx) (f : Field) (result : List (List Char)) :
    List (List Char) :=
  match f with
  | Field.user => user_display env ctx result
  | Field.hostname => hostname_display env ctx result
  | Field.distro => distro_display env ctx result
  | Field.pimodel => pimodel_display env ctx result
  | Field.kernel => kernel_display env ctx result
  | Field.uptime => uptime_display env ctx result
  | Field.wm => wm_display env ctx result
  | Field.de => de_display env ctx result
  | Field.sh => sh_display env ctx result
  | Field.term => term_display env ctx result
  | Field.packages => packages_display env ctx result
  | Field.resolution => resolution_display env ctx result
  | Field.gpu => gpu_display env ctx result
  | Field.cpu => cpu_display env ctx result
  | Field.ram => ram_display env ctx result
  | Field.disk => disk_display env ctx result

/-- The orchestrator loop (archey.py:1647-1665): run each configured
field's collector in order over the shared result list. -/
def runDisplay (env : Env) (ctx : Ctx) (result : List (List Char)) : List (List Char) :=
  displayFields.foldl (fun st f => runCollector env ctx f st) result

/-! ## Concrete environments used by witnesses and counterexamples -/

/-- The §8 Kubuntu scenario: Linux kernel, os-release with `ID=ubuntu`
and `PRETTY_NAME=Ubuntu 22.04.3 LTS`, KDE desktop, x86_64. -/
def envKubuntuScenario : Env :=
  { unameInstalled := true, unameS := "Linux", unameM := "x86_64",
    osReleaseExists := true, osReleaseID := some "ubuntu",
    osReleasePrettyName := some "Ubuntu 22.04.3 LTS",
    xdgCurrentDesktop := some "KDE" }

/-- A Raspberry-Pi OS environment: Linux kernel, os-release with
`ID=debian`, device-tree model naming a Raspberry Pi. -/
def envRaspbianScenario : Env :=
  { unameInstalled := true, unameS := "Linux", unameM := "aarch64",
    osReleaseExists := true, osReleaseID := some "debian",
    osReleasePrettyName := some "Debian GNU/Linux 11 (bullseye)",
    deviceTreeExists := true, deviceTreeModel := "Raspberry Pi 4 Model B" }

/-- A result line of the exact shape `output` produces
(archey.py:743-750), used to exercise the printing truncation. -/
def sampleResultLine : List Char := outputLine Distro.Ubuntu "OS" "X".data

/-- The length bound used throughout: dropping leading digits never grows
a list. -/
theorem length_dropWhile_isDigit_le (cs : List Char) :
    (cs.dropWhile Char.isDigit).length ≤ cs.length := by
  induction cs with
  | nil => simp [List.dropWhile]
  | cons a t ih =>
    simp only [List.dropWhile]
    split
    · exact Nat.le_succ_of_le ih
    · simp

theorem dropSemiGo_nil (f : Nat) : dropSemiGo f [] = [] := by
  cases f <;> rfl

theorem dropSemiGo_succ_semi (f : Nat) (c : Char) (cs : List Char) :
    dropSemiGo (f + 1) (';' :: c :: cs) =
      if c.isDigit then dropSemiGo f (cs.dropWhile Char.isDigit)
      else ';' :: c :: cs := rfl

theorem dropSemiGo_not_semi (f : Nat) (l : List Char)
    (h : ∀ c cs, l ≠ ';' :: c :: cs) : dropSemiGo f l = l := by
  cases f with
  | zero => rfl
  | succ g =>
    unfold dropSemiGo
    split
    next => exact absurd rfl (h _ _)
    next => rfl

theorem dropSemiGo_irrel (f1 : Nat) : ∀ (f2 : Nat) (l : List Char),
    l.length ≤ f1 → l.length ≤ f2 → dropSemiGo f1 l = dropSemiGo f2 l := by
  induction f1 with
  | zero =>
    intro f2 l h1 h2
    have hl : l = [] := List.eq_nil_of_length_eq_zero (Nat.le_zero.mp h1)
    subst hl
    rw [dropSemiGo_nil, dropSemiGo_nil]
  | succ g ih =>
    intro f2 l h1 h2
    by_cases hsemi : ∃ c cs, l = ';' :: c :: cs
    · obtain ⟨c, cs, rfl⟩ := hsemi
      simp only [List.length_cons] at h1 h2
      obtain ⟨g2, rfl⟩ : ∃ g2, f2 = g2 + 1 := ⟨f2 - 1, by omega⟩
      rw [dropSemiGo_succ_semi, dropSemiGo_succ_semi]
      by_cases hd : c.isDigit
      · rw [if_pos hd, if_pos hd]
        have hw := length_dropWhile_isDigit_le cs
        exact ih g2 _ (by omega) (by omega)
      · rw [if_neg hd, if_neg hd]
    · push_neg at hsemi
      rw [dropSemiGo_not_semi _ _ hsemi, dropSemiGo_not_semi _ _ hsemi]

theorem dropSemiIntList_semi (c : Char) (cs : List Char) :
    dropSemiIntList (';' :: c :: cs) =
      if c.isDigit then dropSemiIntList (cs.dropWhile Char.isDigit)
      else ';' :: c :: cs := by
  unfold dropSemiIntList
  rw [show (';' :: c :: cs).length = cs.length + 1 + 1 from rfl, dropSemiGo_succ_semi]
  by_cases hd : c.isDigit
  · rw [if_pos hd, if_pos hd]
    have hw := length_dropWhile_isDigit_le cs
    exact dropSemiGo_irrel _ _ _ (by omega) (le_refl _)
  · rw [if_neg hd, if_neg hd]

theorem dropSemiIntList_not_semi {l : List Char}
    (h : ∀ c cs, l ≠ ';' :: c :: cs) : dropSemiIntList l = l :=
  dropSemiGo_not_semi _ _ h

theorem dropSemiIntList_nil : dropSemiIntList [] = [] := rfl

theorem dropSemiIntList_singleton (c : Char) : dropSemiIntList [c] = [c] :=
  dropSemiIntList_not_semi (by intro c' cs h; injection h with h1 h2; exact List.noConfusion h2)

theorem dropSemiIntList_cons_ne_semi {c : Char} (h : ¬ c = ';') (l : List Char) :
    dropSemiIntList (c :: l) = c :: l :=
  dropSemiIntList_not_semi (by intro c' cs hr; injection hr with h1 h2; exact h h1)

/-- Strong-induction principle mirroring the recursion of
`dropSemiIntList`. -/
theorem dropSemiIntList_rec (P : List Char → Prop)
    (h1 : ∀ c cs, c.isDigit = true → P (cs.dropWhile Char.isDigit) → P (';' :: c :: cs))
    (h2 : ∀ c cs, ¬ c.isDigit = true → P (';' :: c :: cs))
    (h3 : ∀ l, (∀ c cs, l ≠ ';' :: c :: cs) → P l) : ∀ l, P l := by
  suffices h : ∀ n (l : List Char), l.length ≤ n → P l from
    fun l => h l.length l (le_refl _)
  intro n
  induction n with
  | zero =>
    intro l hl
    refine h3 l ?_
    intro c cs hc
    subst hc
    simp at hl
  | succ m ih =>
    intro l hl
    by_cases hsemi : ∃ c cs, l = ';' :: c :: cs
    · obtain ⟨c, cs, rfl⟩ := hsemi
      by_cases hd : c.isDigit
      · refine h1 c cs hd (ih _ ?_)
        simp only [List.length_cons] at hl
        have := length_dropWhile_isDigit_le cs
        omega
      · exact h2 c cs hd
    · push_neg at hsemi
      exact h3 l hsemi

theorem length_dropSemiIntList_le (l : List Char) :
    (dropSemiIntList l).length ≤ l.length := by
  induction l using dropSemiIntList_rec with
  | h1 c cs hd ih =>
    rw [dropSemiIntList_semi, if_pos hd]
    have := length_dropWhile_isDigit_le cs
    simp only [List.length_cons]
    omega
  | h2 c cs hd => rw [dropSemiIntList_semi, if_neg hd]
  | h3 l h => rw [dropSemiIntList_not_semi h]

theorem length_escParams_le (cs : List Char) : (escParams cs).length ≤ cs.length := by
  unfold escParams
  split
  · exact le_trans (length_dropSemiIntList_le _) (length_dropWhile_isDigit_le _)
  · exact Nat.le_refl _

theorem escFinish_length_lt {cs rest : List Char}
    (h : escFinish cs = some rest) : rest.length < cs.length := by
  unfold escFinish at h
  split at h
  next c r =>
    split at h
    · cases h; simp
    · cases h
  next => cases h

theorem matchEscTail_length_lt {cs rest : List Char}
    (h : matchEscTail cs = some rest) : rest.length < cs.length :=
  lt_of_lt_of_le (escFinish_length_lt h) (length_escParams_le cs)

theorem matchEscape_length_lt {l rest : List Char}
    (h : matchEscape l = some rest) : rest.length < l.length := by
  unfold matchEscape at h
  split at h
  next a b cs =>
    split at h
    · have := matchEscTail_length_lt h
      simp only [List.length_cons]
      omega
    · cases h
  next => cases h

theorem stripGo_nil (f : Nat) : stripGo f [] = [] := by
  cases f <;> rfl

theorem stripGo_succ_cons (f : Nat) (c : Char) (cs : List Char) :
    stripGo (f + 1) (c :: cs) =
      match matchEscape (c :: cs) with
      | some rest => stripGo f rest
      | none => c :: stripGo f cs := rfl

theorem stripGo_irrel (f1 : Nat) : ∀ (f2 : Nat) (l : List Char),
    l.length ≤ f1 → l.length ≤ f2 → stripGo f1 l = stripGo f2 l := by
  induction f1 with
  | zero =>
    intro f2 l h1 h2
    have hl : l = [] := List.eq_nil_of_length_eq_zero (Nat.le_zero.mp h1)
    subst hl
    rw [stripGo_nil, stripGo_nil]
  | succ g ih =>
    intro f2 l h1 h2
    cases l with
    | nil => rw [stripGo_nil, stripGo_nil]
    | cons c cs =>
      simp only [List.length_cons] at h1 h2
      obtain ⟨g2, rfl⟩ : ∃ g2, f2 = g2 + 1 := ⟨f2 - 1, by omega⟩
      rw [stripGo_succ_cons, stripGo_succ_cons]
      cases h : matchEscape (c :: cs) with
      | some rest =>
        have hlt := matchEscape_length_lt h
        simp only [List.length_cons] at hlt
        exact ih g2 rest (by omega) (by omega)
      | none =>
        rw [ih g2 cs (by omega) (by omega)]

theorem stripANSI_nil : stripANSI [] = [] := rfl

theorem stripANSI_cons_of_some {c : Char} {cs rest : List Char}
    (h : matchEscape (c :: cs) = some rest) :
    stripANSI (c :: cs) = stripANSI rest := by
  unfold stripANSI
  rw [show (c :: cs).length = cs.length + 1 from rfl, stripGo_succ_cons, h]
  have hlt := matchEscape_length_lt h
  simp only [List.length_cons] at hlt
  exact stripGo_irrel _ _ _ (by omega) (le_refl _)

theorem stripANSI_cons_of_none {c : Char} {cs : List Char}
    (h : matchEscape (c :: cs) = none) :
    stripANSI (c :: cs) = c :: stripANSI cs := by
  unfold stripANSI
  rw [show (c :: cs).length = cs.length + 1 from rfl, stripGo_succ_cons, h]

/-- Strong-induction principle mirroring the recursion of `stripANSI`. -/
theorem stripANSI_rec (P : List Char → Prop) (h0 : P [])
    (hsome : ∀ c cs rest, matchEscape (c :: cs) = some rest → P rest → P (c :: cs))
    (hnone : ∀ c cs, matchEscape (c :: cs) = none → P cs → P (c :: cs)) :
    ∀ l, P l := by
  suffices h : ∀ n (l : List Char), l.length ≤ n → P l from
    fun l => h l.length l (le_refl _)
  intro n
  induction n with
  | zero =>
    intro l hl
    have hl2 : l = [] := List.eq_nil_of_length_eq_zero (Nat.le_zero.mp hl)
    subst hl2
    exact h0
  | succ m ih =>
    intro l hl
    cases l with
    | nil => exact h0
    | cons c cs =>
      simp only [List.length_cons] at hl
      cases h : matchEscape (c :: cs) with
      | some rest =>
        have hlt := matchEscape_length_lt h
        simp only [List.length_cons] at hlt
        exact hsome c cs rest h (ih rest (by omega))
      | none =>
        exact hnone c cs h (ih cs (by omega))

theorem stripANSI_length_le (l : List Char) : (stripANSI l).length ≤ l.length := by
  induction l using stripANSI_rec with
  | h0 => rw [stripANSI_nil]
  | hsome c cs rest h ih =>
    rw [stripANSI_cons_of_some h]
    have := matchEscape_length_lt h
    omega
  | hnone c cs h ih =>
    rw [stripANSI_cons_of_none h]
    simp only [List.length_cons]
    omega

/-! ### Appending pad spaces commutes with escape stripping

`ANSIljust` pads with `' '`, which can neither start, continue nor
terminate an escape sequence; these lemmas make that precise. -/

theorem matchEscape_cons_cons (a b : Char) (cs : List Char) :
    matchEscape (a :: b :: cs) =
      if a = '\x1b' ∧ b = '[' then matchEscTail cs else none := rfl

theorem matchEscape_head_ne {a : Char} (h : ¬ a = '\x1b') (l : List Char) :
    matchEscape (a :: l) = none := by
  cases l with
  | nil => rfl
  | cons b cs =>
    rw [matchEscape_cons_cons, if_neg]
    intro hc
    exact h hc.1

theorem matchEscape_second_ne {a b : Char} (h : ¬ b = '[') (cs : List Char) :
    matchEscape (a :: b :: cs) = none := by
  rw [matchEscape_cons_cons, if_neg]
  intro hc
  exact h hc.2

theorem dropWhile_isDigit_replicate_space (k : Nat) :
    (List.replicate k ' ').dropWhile Char.isDigit = List.replicate k ' ' := by
  cases k with
  | zero => rfl
  | succ m =>
    rw [List.replicate_succ, List.dropWhile_cons]
    simp

theorem dropSemiIntList_replicate_space (k : Nat) :
    dropSemiIntList (List.replicate k ' ') = List.replicate k ' ' := by
  cases k with
  | zero => exact dropSemiIntList_nil
  | succ m =>
    rw [List.replicate_succ]
    exact dropSemiIntList_cons_ne_semi (by decide) _

theorem dropSemiIntList_append_space (xs : List Char) (k : Nat) :
    dropSemiIntList (xs ++ List.replicate k ' ') =
      dropSemiIntList xs ++ List.replicate k ' ' := by
  induction xs using dropSemiIntList_rec with
  | h1 c cs h ih =>
    rw [List.cons_append, List.cons_append]
    rw [dropSemiIntList_semi, if_pos h, dropSemiIntList_semi, if_pos h]
    rw [List.dropWhile_append]
    split
    next he =>
      rw [List.isEmpty_iff] at he
      rw [he, dropWhile_isDigit_replicate_space, dropSemiIntList_replicate_space,
        dropSemiIntList_nil, List.nil_append]
    next he => exact ih
  | h2 c cs h =>
    rw [List.cons_append, List.cons_append]
    rw [dropSemiIntList_semi, if_neg h, dropSemiIntList_semi, if_neg h]
    rw [List.cons_append, List.cons_append]
  | h3 xs h =>
    cases xs with
    | nil =>
      rw [List.nil_append, dropSemiIntList_nil, List.nil_append,
        dropSemiIntList_replicate_space]
    | cons c cs =>
      by_cases hc : c = ';'
      · subst hc
        cases cs with
        | nil =>
          cases k with
          | zero =>
            rw [List.replicate, List.append_nil, List.append_nil]
          | succ m =>
            rw [List.cons_append, List.nil_append, List.replicate_succ]
            rw [dropSemiIntList_semi, if_neg (by decide)]
            rw [dropSemiIntList_singleton]
            rw [List.cons_append, List.nil_append]
        | cons c' cs' => exact absurd rfl (h c' cs')
      · rw [List.cons_append, dropSemiIntList_cons_ne_semi hc,
          dropSemiIntList_cons_ne_semi hc, List.cons_append]

theorem escParams_append_space (cs : List Char) (k : Nat) :
    escParams (cs ++ List.replicate k ' ') = escParams cs ++ List.replicate k ' ' := by
  cases cs with
  | nil =>
    rw [List.nil_append]
    unfold escParams
    cases k with
    | zero => rfl
    | succ m =>
      rw [List.replicate_succ]
      rw [show headIsDigit (' ' :: List.replicate m ' ') = false from rfl]
      rw [show headIsDigit ([] : List Char) = false from rfl]
      simp
  | cons c cs' =>
    unfold escParams
    rw [List.cons_append]
    rw [show headIsDigit (c :: (cs' ++ List.replicate k ' ')) = c.isDigit from rfl]
    rw [show headIsDigit (c :: cs') = c.isDigit from rfl]
    by_cases hd : c.isDigit
    · rw [if_pos hd, if_pos hd]
      rw [List.dropWhile_cons, List.dropWhile_cons, if_pos hd, if_pos hd]
      rw [List.dropWhile_append]
      split
      next he =>
        rw [List.isEmpty_iff] at he
        rw [he, dropWhile_isDigit_replicate_space, dropSemiIntList_replicate_space,
          dropSemiIntList_nil, List.nil_append]
      next he => exact dropSemiIntList_append_space _ k
    · rw [if_neg hd, if_neg hd, List.cons_append]

theorem escFinish_cons (c : Char) (rest : List Char) :
    escFinish (c :: rest) = if c.isAlpha then some rest else none := rfl

theorem escFinish_append_space (l : List Char) (k : Nat) :
    escFinish (l ++ List.replicate k ' ') =
      (escFinish l).map (· ++ List.replicate k ' ') := by
  cases l with
  | nil =>
    rw [List.nil_append]
    cases k with
    | zero => rfl
    | succ m =>
      rw [List.replicate_succ, escFinish_cons, if_neg (by decide)]
      rfl
  | cons c rest =>
    rw [List.cons_append, escFinish_cons, escFinish_cons]
    by_cases ha : c.isAlpha
    · rw [if_pos ha, if_pos ha]; rfl
    · rw [if_neg ha, if_neg ha]; rfl

theorem matchEscTail_append_space (cs : List Char) (k : Nat) :
    matchEscTail (cs ++ List.replicate k ' ') =
      (matchEscTail cs).map (· ++ List.replicate k ' ') := by
  unfold matchEscTail
  rw [escParams_append_space, escFinish_append_space]

theorem matchEscape_append_space (l : List Char) (k : Nat) :
    matchEscape (l ++ List.replicate k ' ') =
      (matchEscape l).map (· ++ List.replicate k ' ') := by
  match l with
  | [] =>
    rw [List.nil_append]
    cases k with
    | zero => rfl
    | succ m =>
      rw [List.replicate_succ, matchEscape_head_ne (by decide)]
      rfl
  | [a] =>
    cases k with
    | zero => rfl
    | succ m =>
      rw [List.cons_append, List.nil_append, List.replicate_succ]
      rw [matchEscape_second_ne (by decide)]
      rfl
  | a :: b :: cs =>
    rw [List.cons_append, List.cons_append]
    rw [matchEscape_cons_cons, matchEscape_cons_cons]
    by_cases hab : a = '\x1b' ∧ b = '['
    · rw [if_pos hab, if_pos hab, matchEscTail_append_space]
    · rw [if_neg hab, if_neg hab]; rfl

theorem stripANSI_replicate_space (k : Nat) :
    stripANSI (List.replicate k ' ') = List.replicate k ' ' := by
  induction k with
  | zero => exact stripANSI_nil
  | succ m ih =>
    rw [List.replicate_succ, stripANSI_cons_of_none (matchEscape_head_ne (by decide) _), ih]

theorem stripANSI_append_space (l : List Char) (k : Nat) :
    stripANSI (l ++ List.replicate k ' ') = stripANSI l ++ List.replicate k ' ' := by
  induction l using stripANSI_rec with
  | h0 =>
    rw [List.nil_append, stripANSI_replicate_space, stripANSI_nil, List.nil_append]
  | hsome c cs rest h ih =>
    have h2 : matchEscape (c :: (cs ++ List.replicate k ' ')) =
        some (rest ++ List.replicate k ' ') := by
      rw [← List.cons_append, matchEscape_append_space, h]
      rfl
    rw [List.cons_append, stripANSI_cons_of_some h2, ih, stripANSI_cons_of_some h]
  | hnone c cs h ih =>
    have h2 : matchEscape (c :: (cs ++ List.replicate k ' ')) = none := by
      rw [← List.cons_append, matchEscape_append_space, h]
      rfl
    rw [List.cons_append, stripANSI_cons_of_none h2, ih, stripANSI_cons_of_none h,
      List.cons_append]

theorem foldl_runningMax (f : List Char → Nat) :
    ∀ (l : List (List Char)) (a : Nat),
      l.foldl (fun acc line => if acc < f line then f line else acc) a =
        max a ((l.map f).foldr max 0) := by
  intro l
  induction l with
  | nil => intro a; simp
  | cons x t ih =>
    intro a
    rw [List.foldl_cons, ih, List.map_cons, List.foldr_cons]
    have hstep : (if a < f x then f x else a) = max a (f x) := by
      split <;> omega
    rw [hstep]
    omega

theorem archeyOutputList_merge (tc : Nat) (h : ¬ tc < 70) (logo res : List (List Char)) :
    archeyOutputList tc logo res = specMergedLines logo res := by
  unfold archeyOutputList specMergedLines
  rw [if_neg h]
  simp only [foldl_runningMax (fun line => (ANSILen line).1), Nat.zero_max]
  rcases Nat.lt_trichotomy logo.length res.length with hlt | heq | hgt
  · have hd1 : ¬ (0 : Int) < (logo.length : Int) - (res.length : Int) := by omega
    have hd2 : ((logo.length : Int) - (res.length : Int)) < 0 := by omega
    rw [if_neg hd1, if_pos hd2]
    have hn : max logo.length res.length = res.length := by omega
    have ht : (-((logo.length : Int) - (res.length : Int))).toNat =
        res.length - logo.length := by omega
    have hz : res.length - res.length = 0 := by omega
    rw [hn, ht, hz, List.replicate_zero, List.append_nil]
  · have hd1 : ¬ (0 : Int) < (logo.length : Int) - (res.length : Int) := by omega
    have hd2 : ¬ ((logo.length : Int) - (res.length : Int)) < 0 := by omega
    rw [if_neg hd1, if_neg hd2]
    have hn : max logo.length res.length = res.length := by omega
    have hz : res.length - res.length = 0 := by omega
    have hz2 : res.length - logo.length = 0 := by omega
    rw [hn, hz, hz2]
    simp
  · have hd1 : (0 : Int) < (logo.length : Int) - (res.length : Int) := by omega
    have hd2 : ¬ ((logo.length : Int) - (res.length : Int)) < 0 := by omega
    rw [if_pos hd1, if_neg hd2]
    have hn : max logo.length res.length = logo.length := by omega
    have ht : ((logo.length : Int) - (res.length : Int)).toNat =
        logo.length - res.length := by omega
    have hz : logo.length - logo.length = 0 := by omega
    rw [hn, ht, hz, List.replicate_zero, List.append_nil]

theorem specMergedLines_length (logo res : List (List Char)) :
    (specMergedLines logo res).length = max logo.length res.length := by
  unfold specMergedLines
  simp only [List.length_map, List.length_zip, List.length_append, List.length_replicate]
  omega

/-! ## Helper lemmas about `IdentifyOS` -/

theorem string_ne_empty_of_data_ne {s : String} (h : s.data ≠ []) : s ≠ "" := by
  intro hc
  rw [String.ext_iff] at hc
  exact h hc

theorem append_ne_empty_left (s t : String) (h : s ≠ "") : s ++ t ≠ "" := by
  refine string_ne_empty_of_data_ne ?_
  rw [String.data_append]
  intro hc
  rcases List.append_eq_nil.mp hc with ⟨h1, h2⟩
  exact h (by rw [String.ext_iff]; exact h1)

theorem archAppend_ne_empty_of_installed (env : Env) (p : String)
    (h : env.unameInstalled = true) : archAppend env p ≠ "" := by
  unfold archAppend
  rw [if_pos h]
  refine string_ne_empty_of_data_ne ?_
  rw [String.data_append, String.data_append]
  simp

theorem archAppend_ne_empty (env : Env) (p : String) (h : p ≠ "") :
    archAppend env p ≠ "" := by
  unfold archAppend
  split
  · refine string_ne_empty_of_data_ne ?_
    rw [String.data_append, String.data_append]
    intro hc
    rcases List.append_eq_nil.mp hc with ⟨h1, h2⟩
    rcases List.append_eq_nil.mp h1 with ⟨h3, h4⟩
    exact h (by rw [String.ext_iff]; exact h3)
  · exact h

theorem kubuntuOverride_pretty_ne_empty (env : Env) (idPretty : String × String)
    (h : idPretty.2 ≠ "") : (kubuntuOverride env idPretty).2 ≠ "" := by
  unfold kubuntuOverride
  split
  · exact append_ne_empty_left "Ku" _ (by decide)
  · exact h

theorem raspbianOverride_pretty_ne_empty (env : Env) (idPretty : String × String)
    (h : idPretty.2 ≠ "") : (raspbianOverride env idPretty).2 ≠ "" := by
  unfold raspbianOverride
  split
  · exact append_ne_empty_left "Rasp" _ (by decide)
  · exact h

/-- Every `Except.ok` branch of the cascade either ran with `uname`
installed or produced the literal "Undetermined" pretty name. -/
theorem baseIdentity_installed_or_undetermined (env : Env) (i p : String)
    (h : baseIdentity env = Except.ok (i, p)) :
    env.unameInstalled = true ∨ p = "Undetermined" := by
  unfold baseIdentity detectBaseSystem at h
  by_cases hu : env.unameInstalled = true
  · exact Or.inl hu
  · rw [if_neg hu] at h
    rw [if_neg (by decide : ¬ ("Unknown" : String) = "Darwin")] at h
    rw [if_neg (by decide : ¬ (("Unknown" : String) = "Linux" ∨ ("Unknown" : String) = "FreeBSD"))] at h
    injection h with h1
    injection h1 with h2 h3
    exact Or.inr h3.symm

/-- With a readable system-version resource on the Darwin path, the
cascade never errs. -/
theorem baseIdentity_ok (env : Env)
    (hplist : env.unameInstalled = true → env.unameS = "Darwin" →
      env.productUserVisibleVersion.isSome = true) :
    ∃ i p, baseIdentity env = Except.ok (i, p) := by
  unfold baseIdentity
  by_cases hdarwin : detectBaseSystem env = "Darwin"
  · rw [if_pos hdarwin]
    have hu : env.unameInstalled = true := by
      by_contra hu
      unfold detectBaseSystem at hdarwin
      rw [if_neg hu] at hdarwin
      exact absurd hdarwin (by decide)
    have hs : env.unameS = "Darwin" := by
      unfold detectBaseSystem at hdarwin
      rw [if_pos hu] at hdarwin
      exact hdarwin
    have := hplist hu hs
    match hv : env.productUserVisibleVersion with
    | none => rw [hv] at this; exact absurd this (by decide)
    | some v => exact ⟨_, _, rfl⟩
  · rw [if_neg hdarwin]
    split
    · split
      · exact ⟨_, _, rfl⟩
      · split
        · exact ⟨_, _, rfl⟩
        · exact ⟨_, _, rfl⟩
    · exact ⟨_, _, rfl⟩

/-- When `uname` is unavailable the whole cascade degrades to the
"Undetermined"/`Unknown` result. -/
theorem identifyOS_no_uname (env : Env) (h : env.unameInstalled = false) :
    IdentifyOS env = Except.ok ("Undetermined", Distro.Unknown, "Undetermined") := by
  unfold IdentifyOS baseIdentity detectBaseSystem archAppend kubuntuOverride
    raspbianOverride
  rw [h]
  simp only [Bool.false_eq_true, if_false]
  rw [if_neg (by decide : ¬ ("Unknown" : String) = "Darwin")]
  rw [if_neg (by decide : ¬ (("Unknown" : String) = "Linux" ∨ ("Unknown" : String) = "FreeBSD"))]
  rfl

/-! ## Helper lemmas about the collectors -/

/-- Each collector invocation appends zero or one line. -/
theorem runCollector_append (env : Env) (ctx : Ctx) (f : Field)
    (result : List (List Char)) :
    ∃ o : Option (List Char), runCollector env ctx f result = result ++ o.toList := by
  cases f <;>
    simp only [runCollector, user_display, hostname_display, distro_display,
      pimodel_display, kernel_display, uptime_display, wm_display, de_display,
      sh_display, term_display, packages_display, resolution_display, gpu_display,
      cpu_display, ram_display, disk_display] <;>
    first
      | exact ⟨some _, rfl⟩
      | (repeat' split) <;>
          first
            | exact ⟨some _, rfl⟩
            | exact ⟨none, (List.append_nil result).symm⟩

/-- Folding collectors over a field list only ever appends, at most one
line per field. -/
theorem runFold_append (env : Env) (ctx : Ctx) :
    ∀ (fs : List Field) (result : List (List Char)),
      ∃ tail, fs.foldl (fun st f => runCollector env ctx f st) result = result ++ tail ∧
        tail.length ≤ fs.length := by
  intro fs
  induction fs with
  | nil => intro result; exact ⟨[], by simp⟩
  | cons f t ih =>
    intro result
    rw [List.foldl_cons]
    obtain ⟨o, ho⟩ := runCollector_append env ctx f result
    obtain ⟨tail, ht, hlen⟩ := ih (runCollector env ctx f result)
    refine ⟨o.toList ++ tail, ?_, ?_⟩
    · rw [ht, ho, List.append_assoc]
    · have hol : o.toList.length ≤ 1 := by cases o <;> simp
      simp only [List.length_append, List.length_cons]
      omega

/-! ## Claim theorems -/

/-- C1: `IdentifyOS` is total over every combination of kernel family,
os-release presence and `lsb_release` availability (with the Darwin
system-version resource readable, as on a real Darwin host — the source
opens it unguarded): it returns a distro-identity triple with a non-empty
pretty name, and with `uname` unavailable it degrades to the
"Undetermined"/`Unknown` result instead of erroring. -/
theorem identifyOS_total (env : Env)
    (hplist : env.unameInstalled = true → env.unameS = "Darwin" →
      env.productUserVisibleVersion.isSome = true) :
    (∃ r : String × Distro × String, IdentifyOS env = Except.ok r ∧ r.2.2 ≠ "") ∧
    (env.unameInstalled = false →
      IdentifyOS env = Except.ok ("Undetermined", Distro.Unknown, "Undetermined")) := by
  constructor
  · obtain ⟨i, p, hbase⟩ := baseIdentity_ok env hplist
    have hne : archAppend env p ≠ "" := by
      rcases baseIdentity_installed_or_undetermined env i p hbase with hu | hp
      · exact archAppend_ne_empty_of_installed env p hu
      · exact archAppend_ne_empty env p (by rw [hp]; decide)
    have hok : IdentifyOS env = Except.ok
        ((raspbianOverride env (kubuntuOverride env (i, archAppend env p))).1,
         (match DistroEnumDict
             (raspbianOverride env (kubuntuOverride env (i, archAppend env p))).1 with
          | some x => x
          | none => Distro.Unknown),
         (raspbianOverride env (kubuntuOverride env (i, archAppend env p))).2) := by
      unfold IdentifyOS
      rw [hbase]
    exact ⟨_, hok, raspbianOverride_pretty_ne_empty env _
      (kubuntuOverride_pretty_ne_empty env _ hne)⟩
  · exact identifyOS_no_uname env

/-- Witness for `identifyOS_total`: the default environment, no tools
available at all. -/
theorem identifyOS_total_witness :
    (∃ r : String × Distro × String, IdentifyOS {} = Except.ok r ∧ r.2.2 ≠ "") ∧
    (({} : Env).unameInstalled = false →
      IdentifyOS {} = Except.ok ("Undetermined", Distro.Unknown, "Undetermined")) :=
  identifyOS_total {} (by intro h1 _; exact absurd h1 (by decide))

/-- C2 counterexample: the truncation `EachLine[:TerminalColumns+ANSIChars]`
does *not* bound the visible length by `TerminalColumns` for every merged
line and width.  At terminal width 2 the result line
`output('OS', 'X')` — a merged output line of the narrow-terminal branch —
is truncated to a string with 6 visible characters: the cut lands inside
the `clear` escape sequence, whose characters were counted by `ANSIChars`
but now fail to parse as an escape and so count as visible. -/
theorem truncate_visible_counterexample :
    sampleResultLine ∈ archeyOutputList 2 [] [sampleResultLine] ∧
    2 < visibleLen (truncatePrinted 2 sampleResultLine) := by
  decide

/-- C2 (amended): the truncated line has at most `terminalColumns` visible
characters provided the truncation boundary neither cuts an escape
sequence nor excludes one — i.e. the truncated prefix retains the whole
line's escape-character count.  (Without that proviso the bound fails;
see the counterexample.) -/
theorem truncate_visible_le (line : List Char) (terminalColumns : Nat)
    (hfull : ansiCount (truncatePrinted terminalColumns line) = ansiCount line) :
    visibleLen (truncatePrinted terminalColumns line) ≤ terminalColumns := by
  set t := truncatePrinted terminalColumns line with ht
  have h1 : (stripANSI t).length ≤ t.length := stripANSI_length_le t
  have h2 : (stripANSI line).length ≤ line.length := stripANSI_length_le line
  have h3 : t.length ≤ terminalColumns + (line.length - (stripANSI line).length) := by
    rw [ht]
    show (line.take (terminalColumns + (ANSILen line).2)).length ≤
      terminalColumns + (line.length - (stripANSI line).length)
    exact List.length_take_le _ _
  have h4 : t.length - (stripANSI t).length = line.length - (stripANSI line).length :=
    hfull
  show (stripANSI t).length ≤ terminalColumns
  omega

/-- Witness for `truncate_visible_le`: a width that keeps the whole
sample line, so every escape character stays inside the prefix. -/
theorem truncate_visible_le_witness :
    ansiCount (truncatePrinted 20 sampleResultLine) = ansiCount sampleResultLine ∧
    visibleLen (truncatePrinted 20 sampleResultLine) ≤ 20 :=
  ⟨by decide, truncate_visible_le sampleResultLine 20 (by decide)⟩

/-- C3: the §8 Kubuntu scenario — Linux kernel, os-release `ID=ubuntu`
with `PRETTY_NAME=Ubuntu 22.04.3 LTS`, KDE desktop, x86_64 — yields
identity `Kubuntu` and pretty name exactly "Kubuntu 22.04.3 LTS x86_64". -/
theorem kubuntu_scenario :
    IdentifyOS envKubuntuScenario =
      Except.ok ("Kubuntu", Distro.Kubuntu, "Kubuntu 22.04.3 LTS x86_64") := rfl

/-- C4 counterexample: on a Raspberry-Pi Debian environment the code
reclassifies to Raspbian, but the resulting pretty name is *not* "Rasp"
prepended to the original pretty name minus its first letter (the source
drops the first *two* characters: `"Rasp" + OSReleasePretty[2:]`,
archey.py:1114).  The original (pre-override) pretty name, architecture
included, is exhibited by the first two conjuncts. -/
theorem raspbian_rewrite_counterexample :
    baseIdentity envRaspbianScenario =
      Except.ok ("Debian", "Debian GNU/Linux 11 (bullseye)") ∧
    archAppend envRaspbianScenario "Debian GNU/Linux 11 (bullseye)" =
      "Debian GNU/Linux 11 (bullseye) aarch64" ∧
    IdentifyOS envRaspbianScenario =
      Except.ok ("Raspbian", Distro.Raspbian,
        "Raspbian GNU/Linux 11 (bullseye) aarch64") ∧
    "Raspbian GNU/Linux 11 (bullseye) aarch64" ≠
      "Rasp" ++ strDrop "Debian GNU/Linux 11 (bullseye) aarch64" 1 :=
  ⟨rfl, rfl, rfl, by decide⟩

/-- C4 (amended): whenever the cascade yields raw identity "Debian" and
the device-tree model file exists with content containing "Raspberry Pi",
`IdentifyOS` reclassifies to Raspbian and the pretty name is "Rasp"
concatenated with the original pretty name minus its first *two*
characters. -/
theorem raspbian_override_rewrite (env : Env) (i p : String)
    (hbase : baseIdentity env = Except.ok (i, p)) (hi : i = "Debian")
    (hdt : env.deviceTreeExists = true)
    (hrp : listContainsSub "Raspberry Pi".data env.deviceTreeModel.data = true) :
    IdentifyOS env = Except.ok ("Raspbian", Distro.Raspbian,
      "Rasp" ++ strDrop (archAppend env p) 2) := by
  subst hi
  have hk : kubuntuOverride env ("Debian", archAppend env p) =
      ("Debian", archAppend env p) := by
    unfold kubuntuOverride
    rw [if_neg (fun hc => absurd hc.1 (by decide : ¬ ("Debian" : String) = "Ubuntu"))]
  have hr : raspbianOverride env ("Debian", archAppend env p) =
      ("Raspbian", "Rasp" ++ strDrop (archAppend env p) 2) := by
    unfold raspbianOverride
    rw [if_pos ⟨rfl, hdt, hrp⟩]
  unfold IdentifyOS
  rw [hbase]
  show Except.ok
      ((raspbianOverride env (kubuntuOverride env ("Debian", archAppend env p))).1,
       (match DistroEnumDict
           (raspbianOverride env (kubuntuOverride env ("Debian", archAppend env p))).1 with
        | some x => x
        | none => Distro.Unknown),
       (raspbianOverride env (kubuntuOverride env ("Debian", archAppend env p))).2) =
    Except.ok ("Raspbian", Distro.Raspbian, "Rasp" ++ strDrop (archAppend env p) 2)
  rw [hk, hr]
  rfl

/-- Witness for `raspbian_override_rewrite` at the concrete Raspberry-Pi
environment. -/
theorem raspbian_override_rewrite_witness :
    IdentifyOS envRaspbianScenario =
      Except.ok ("Raspbian", Distro.Raspbian,
        "Rasp" ++ strDrop (archAppend envRaspbianScenario
          "Debian GNU/Linux 11 (bullseye)") 2) :=
  raspbian_override_rewrite envRaspbianScenario "Debian"
    "Debian GNU/Linux 11 (bullseye)" rfl rfl rfl rfl

/-- C5: `ANSIljust` always yields a string whose visible length is
exactly `max n (visibleLen s)`: the pad count is computed on top of the
escape-character count, so escape-laden strings are not under-padded. -/
theorem ansiLjust_visible_eq_max (l : List Char) (n : Nat) :
    visibleLen (ANSIljust l n) = max n (visibleLen l) := by
  unfold visibleLen ANSIljust ANSILen
  rw [stripANSI_append_space]
  have := stripANSI_length_le l
  simp only [List.length_append, List.length_replicate]
  omega

/-- C6: the two counts returned by `ANSILen` always sum to the string
length — for every string, hence in particular for strings of visible
characters interleaved with well-formed escape sequences. -/
theorem ansiLen_parts_sum (l : List Char) :
    visibleLen l + ansiCount l = l.length := by
  show (stripANSI l).length + (l.length - (stripANSI l).length) = l.length
  have := stripANSI_length_le l
  omega

/-- C7: when the logo is included (terminal width at least 70), the merge
produces exactly `max L D` output lines. -/
theorem merge_line_count (terminalColumns : Nat) (h : 70 ≤ terminalColumns)
    (logo res : List (List Char)) :
    (archeyOutputList terminalColumns logo res).length = max logo.length res.length := by
  rw [archeyOutputList_merge terminalColumns (by omega) logo res, specMergedLines_length]

/-- Witness for `merge_line_count`: a two-line logo against one data
line at the threshold width. -/
theorem merge_line_count_witness :
    (archeyOutputList 70 [['a'], ['b']] [['c']]).length = max 2 1 :=
  merge_line_count 70 (by decide) [['a'], ['b']] [['c']]

/-- C8: the logo is skipped exactly below the fixed 70-column threshold:
under 70 the output is the data lines alone, and at 70 or more it is the
logo merged beside the data lines (equalise with empty lines, left-justify
each logo line to the maximum visible logo width, glue with the four-space
gutter). -/
theorem logo_skip_threshold (terminalColumns : Nat) (logo res : List (List Char)) :
    (terminalColumns < 70 → archeyOutputList terminalColumns logo res = res) ∧
    (70 ≤ terminalColumns →
      archeyOutputList terminalColumns logo res = specMergedLines logo res) := by
  constructor
  · intro h
    unfold archeyOutputList
    rw [if_pos h]
  · intro h
    exact archeyOutputList_merge terminalColumns (by omega) logo res

/-- Witness for `logo_skip_threshold` at widths 60 and 80. -/
theorem logo_skip_threshold_witness :
    archeyOutputList 60 [['a']] [['b'], ['c']] = [['b'], ['c']] ∧
    archeyOutputList 80 [['a']] [['b'], ['c']] = specMergedLines [['a']] [['b'], ['c']] :=
  ⟨(logo_skip_threshold 60 [['a']] [['b'], ['c']]).1 (by decide),
   (logo_skip_threshold 80 [['a']] [['b'], ['c']]).2 (by decide)⟩

/-- C9: every collector invocation appends zero or one line to the shared
result sequence and never touches earlier lines, so a whole pass over the
configured field list leaves every existing line in place and grows the
sequence by at most one line per field. -/
theorem collectors_append_only (env : Env) (ctx : Ctx) :
    (∀ (f : Field) (result : List (List Char)),
      ∃ o : Option (List Char), runCollector env ctx f result = result ++ o.toList) ∧
    (∀ result : List (List Char),
      ∃ tail, runDisplay env ctx result = result ++ tail ∧
        tail.length ≤ displayFields.length) := by
  refine ⟨runCollector_append env ctx, ?_⟩
  intro result
  exact runFold_append env ctx displayFields result

/-- C10: the kernel collector appends exactly one Kernel line for every
distro identity, FreeBSD included: its guard (archey.py:812) compares the
`Distro` enum class itself against `Distro.FreeBSD`, which is never
equal. -/
theorem kernel_line_always_emitted (env : Env) (ctx : Ctx) (result : List (List Char)) :
    kernel_display env ctx result =
      result ++ [outputLine ctx.distroID "Kernel" env.unameSR.data] := by
  unfold kernel_display
  rw [if_pos]
  intro hc
  exact PyEnumVal.noConfusion hc

end Archey
